import Mathlib

/-!
Shallow embedding of the GradCAM++ core module
(`core/grad_cam_plus_plus.py` of tf-explain, `GradCAMPLUSPLUS`),
together with theorems checking the natural-language
specification against the code.

Modelling conventions:
* a tensor of shape (B, H, W, C) is a total index function into `ℚ`,
  meaningful on indices below the bounds; float32 arithmetic is modelled
  exactly over the rationals;
* Python lists become Lean lists, Python exceptions become `Except String`
  values carrying the error message.
-/

abbrev Tensor4 : Type := Nat → Nat → Nat → Nat → ℚ
abbrev Tensor3 : Type := Nat → Nat → Nat → ℚ
abbrev Tensor2 : Type := Nat → Nat → ℚ

/-- Batch slice `t[b]` of a rank-4 tensor (iteration over axis 0). -/
def sliceB (t : Tensor4) (b : Nat) : Tensor3 := fun h w c => t b h w c

/-- Line 171: `sum1 = tf.reduce_sum(outputs, axis=(1,2))` — spatial sum of
the feature map over height and width, leaving a (batch, channel) array. -/
def sum1 (H W : Nat) (outputs : Tensor4) (b c : Nat) : ℚ :=
  ∑ h ∈ Finset.range H, ∑ w ∈ Finset.range W, outputs b h w c

/-- Row-major flat buffer of a rank-4 tensor of shape (·, H, W, C):
entry `n` of the flattened data. -/
def flatten4 (H W C : Nat) (t : Tensor4) (n : Nat) : ℚ :=
  t (n / (H * W * C)) (n / (W * C) % H) (n / C % W) (n % C)

/-- Line 178: `grey = tf.reshape(thirds[i], [4, 64, 1280])` — reinterpret
the flat buffer of the per-class third derivative with the hardcoded
strides of shape [4, 64, 1280]. -/
def grey (H W C : Nat) (thirds_i : Tensor4) (m k j : Nat) : ℚ :=
  flatten4 H W C thirds_i (m * (64 * 1280) + k * 1280 + j)

/-- Lines 182-185: `grey[m,k,j] = sum1[m,j] * grey[m,k,j]` over the whole
[4, 64, 1280] array. -/
def greyScaled (H W C : Nat) (outputs thirds_i : Tensor4) (m k j : Nat) : ℚ :=
  sum1 H W outputs m j * grey H W C thirds_i m k j

/-- Line 187: `global_sum = grey.reshape(4, 8, 8, 1280)` — the middle axis
of length 64 is split into 8 × 8 (row-major). -/
def globalSum (H W C : Nat) (outputs thirds_i : Tensor4) : Tensor4 :=
  fun b h w c => greyScaled H W C outputs thirds_i b (h * 8 + w) c

/-- Line 190: `alpha_denom = seconds[i] * 2.0 + global_sum`. -/
def alphaDenomRaw (H W C : Nat) (outputs seconds_i thirds_i : Tensor4) : Tensor4 :=
  fun b h w c =>
    seconds_i b h w c * 2 + globalSum H W C outputs thirds_i b h w c

/-- Line 191: `alpha_denom = np.where(alpha_denom != 0.0, alpha_denom,
np.ones(alpha_denom.shape))`. -/
def alphaDenom (H W C : Nat) (outputs seconds_i thirds_i : Tensor4) : Tensor4 :=
  fun b h w c =>
    if alphaDenomRaw H W C outputs seconds_i thirds_i b h w c ≠ 0 then
      alphaDenomRaw H W C outputs seconds_i thirds_i b h w c
    else 1

/-- Line 192: `alphas.append(alpha_num / alpha_denom)` with
`alpha_num = seconds[i]` (line 189). -/
def alphaT (H W C : Nat) (outputs seconds_i thirds_i : Tensor4) : Tensor4 :=
  fun b h w c =>
    seconds_i b h w c / alphaDenom H W C outputs seconds_i thirds_i b h w c

/-- Line 219: `weights = tf.reduce_mean(tf.multiply(alpha, grad), axis=(0,1))`
— spatial mean, i.e. spatial sum divided by `H * W`. -/
def weights (H W : Nat) (alpha grad : Tensor3) (c : Nat) : ℚ :=
  (∑ h ∈ Finset.range H, ∑ w ∈ Finset.range W, alpha h w c * grad h w c)
    / ((H : ℚ) * W)

/-- Lines 202-224 `ponderate_output`:
`cam = tf.reduce_sum(tf.multiply(weights, output), axis=-1)`. -/
def ponderate_output (H W C : Nat) (output alpha grad : Tensor3) : Tensor2 :=
  fun h w => ∑ c ∈ Finset.range C, weights H W alpha grad c * output h w c

/-- Lines 177-197, the per-class loop of `generate_ponderated_output`.
The recursion is over the `grads` list (`for i in range(len(grads))`);
accessing `seconds[i]`, `thirds[i]` or `class_index[i]` past the end of
the corresponding list is a Python `IndexError`.

Each iteration performs, in source order:
* line 178 `tf.reshape(thirds[i], [4,64,1280])`, which raises unless the
  tensor holds exactly 4*64*1280 elements;
* line 185 `sum1[m, j]` for `m < 4`, `j < 1280`, which raises a numpy
  `IndexError` unless `4 ≤ B` and `1280 ≤ C`;
* line 190 the broadcast of `seconds[i]` (shape (B,H,W,C)) against
  `global_sum` (shape (4,8,8,1280)), which raises unless every dimension
  pair is equal or 1 (numpy/TF broadcasting rule; the same rule guards the
  division on line 192);
* lines 194-197 the positional scan over batch slices
  `zip(outputs, alphas[i], grads[i], range(B))` (hence `min B 4` indices,
  `alphas[i]` having 4 batch slices), appending
  `ponderate_output(output, alpha, grad)` for the first `j == class_index[i]`
  and breaking; if no position matches, nothing is appended for class `i`. -/
def gpoGo (B H W C : Nat) (outputs : Tensor4) :
    List Tensor4 → List Tensor4 → List Tensor4 → List Nat →
    Except String (List Tensor2)
  | _, _, [], _ => Except.ok []
  | seconds_i :: ss, thirds_i :: ts, g :: gs, ci :: cis =>
    if B * H * W * C ≠ 4 * 64 * 1280 then
      Except.error "InvalidArgumentError: cannot reshape tensor to [4,64,1280]"
    else if ¬ (4 ≤ B ∧ 1280 ≤ C) then
      Except.error "IndexError: index out of bounds in sum1"
    else if ¬ ((B = 4 ∨ B = 1) ∧ (H = 8 ∨ H = 1) ∧ (W = 8 ∨ W = 1) ∧
               (C = 1280 ∨ C = 1)) then
      Except.error "InvalidArgumentError: incompatible broadcast shapes"
    else
      match (List.range (min B 4)).find? (fun j => j == ci) with
      | some j =>
        (gpoGo B H W C outputs ss ts gs cis).map fun maps =>
          ponderate_output H W C (sliceB outputs j)
            (sliceB (alphaT H W C outputs seconds_i thirds_i) j)
            (sliceB g j) :: maps
      | none => gpoGo B H W C outputs ss ts gs cis
  | _, _, _ :: _, _ => Except.error "IndexError: list index out of range"

/-- Lines 152-200 `generate_ponderated_output`: inputs are the target-layer
outputs (shape (B, H, W, C)), the per-class second and third derivatives,
the per-class guided gradients and the class-index list; output is the list
of CAMs (`maps`). -/
def generate_ponderated_output (B H W C : Nat) (outputs : Tensor4)
    (seconds thirds grads : List Tensor4) (class_index : List Nat) :
    Except String (List Tensor2) :=
  gpoGo B H W C outputs seconds thirds grads class_index

/-- Line 138: `tf.cast(x > 0, "float32")`. -/
def reluMask (x : ℚ) : ℚ := if 0 < x then 1 else 0

/-- Lines 137-139: the guided gradient appended for class `i`:
`tf.cast(conv_outputs > 0, "float32") * tf.cast(grads[i] > 0, "float32")
 * grads[i]`. -/
def guided_grads (conv_outputs grads_i : Tensor4) : Tensor4 :=
  fun b h w c =>
    reluMask (conv_outputs b h w c) * reluMask (grads_i b h w c)
      * grads_i b h w c

/-- A Keras layer as seen by `infer_grad_cam_target_layer`: a name and an
output shape (list of dimensions). -/
structure Layer where
  name : String
  output_shape : List Nat
deriving DecidableEq, Repr

/-- Lines 86-105 `infer_grad_cam_target_layer`: scan `reversed(model.layers)`
and return the name of the first layer whose `output_shape` has length 4;
raise `ValueError` if none exists. -/
def infer_grad_cam_target_layer (layers : List Layer) : Except String String :=
  match layers.reverse.find? (fun l => l.output_shape.length == 4) with
  | some l => Except.ok l.name
  | none =>
    Except.error
      "Model does not seem to contain 4D layer. Grad CAM cannot be applied."

/-- Lines 62-84 of `explain`, abstracted after the layer-name resolution:
if `layer_name` is `None` it is inferred from the model (line 62-63), and
only then does the rest of the call (gradient extraction, CAM composition,
rendering — the opaque `rest`) run.  An inference failure therefore aborts
the whole call before any partial result exists. -/
def explainLayerStep (layers : List Layer) (layer_name : Option String)
    (rest : String → Except String (List Tensor2)) :
    Except String (List Tensor2) :=
  match layer_name with
  | some n => rest n
  | none =>
    match infer_grad_cam_target_layer layers with
    | Except.ok n => rest n
    | Except.error e => Except.error e

/-- Line 58: positions (in order) of the entries equal to `1` in a flat
list, i.e. `np.where(flat == 1)[0]`. -/
def idxOfOnes : List ℚ → List Nat
  | [] => []
  | x :: xs =>
    if x = 1 then 0 :: (idxOfOnes xs).map (fun n => n + 1)
    else (idxOfOnes xs).map (fun n => n + 1)

/-- Line 59: `[num - (i*4) for i, num in enumerate(...)]`, started at
enumeration index `i`. -/
def enumSub : Nat → List Nat → List ℤ
  | _, [] => []
  | i, n :: ns => ((n : ℤ) - 4 * i) :: enumSub (i + 1) ns

/-- Lines 57-59 of `explain` (batch mode): flatten the one-hot labels,
take the positions of the value 1, and subtract `4 * i` from the `i`-th
position. -/
def deriveBatchClassIndex (labels : List (List ℚ)) : List ℤ :=
  enumSub 0 (idxOfOnes labels.flatten)

/-- Lines 49-61 of `explain`, restricted to how the class-index list is
obtained: in batch mode it is derived from the batch labels and the
the `class_index` argument of the caller is discarded; otherwise that
argument is used unchanged. -/
def explainClassIndexStep (batch_mode : Bool) (labels : List (List ℚ))
    (class_index : List ℤ) : List ℤ :=
  if batch_mode then deriveBatchClassIndex labels else class_index

/-- A one-hot label row of width `K` with the 1 at position `c`
(the caller-side encoding `explain` expects in batch mode). -/
def oneHot (K c : Nat) : List ℚ :=
  (List.range K).map (fun j => if j = c then 1 else 0)

/-- Flat positions of the ones of a one-hot batch: row `i` with class `c`
contributes position `K * i + c`. -/
def posList (K : Nat) : Nat → List Nat → List Nat
  | _, [] => []
  | i, c :: cs => (K * i + c) :: posList K (i + 1) cs

/-- What lines 57-59 produce on a one-hot batch of width `K`: the `i`-th
derived index is `c_i + i * (K - 4)`. -/
def expectedDerived (K : Nat) : Nat → List Nat → List ℤ
  | _, [] => []
  | i, c :: cs => ((c : ℤ) + i * ((K : ℤ) - 4)) :: expectedDerived K (i + 1) cs

/-! ### Helper lemmas -/

lemma find?_append_or {α : Type} (p : α → Bool) :
    ∀ l₁ l₂ : List α, (l₁ ++ l₂).find? p =
      match l₁.find? p with
      | some x => some x
      | none => l₂.find? p
  | [], _ => rfl
  | a :: l₁, l₂ => by
    by_cases h : p a <;> simp [List.find?_cons, h, find?_append_or p l₁ l₂]

lemma find?_range_beq (c n : Nat) (h : c < n) :
    (List.range n).find? (fun j => j == c) = some c := by
  induction n with
  | zero => omega
  | succ n ih =>
    rw [List.range_succ, find?_append_or]
    by_cases hc : c < n
    · rw [ih hc]
    · have hcn : c = n := by omega
      have hnone : (List.range n).find? (fun j => j == c) = none := by
        rw [List.find?_eq_none]
        intro x hx
        have : x < n := List.mem_range.mp hx
        simp only [beq_iff_eq]
        omega
      rw [hnone]
      subst hcn
      simp [List.find?_cons]

lemma find?_eq_head?_filter {α : Type} (p : α → Bool) :
    ∀ l : List α, l.find? p = (l.filter p).head?
  | [] => rfl
  | a :: l => by
    by_cases h : p a
    · rw [List.find?_cons_of_pos l h, List.filter_cons_of_pos h]
      rfl
    · rw [List.find?_cons_of_neg l h, List.filter_cons_of_neg h]
      exact find?_eq_head?_filter p l

lemma reverse_find?_eq_filter_getLast? {α : Type} (p : α → Bool) (l : List α) :
    l.reverse.find? p = (l.filter p).getLast? := by
  rw [find?_eq_head?_filter, List.filter_reverse, List.head?_reverse]

lemma flatten4_round (t : Tensor4) (b h w c : Nat)
    (hh : h < 8) (hw : w < 8) (hc : c < 1280) :
    flatten4 8 8 1280 t (b * (64 * 1280) + (h * 8 + w) * 1280 + c)
      = t b h w c := by
  unfold flatten4
  have e1 : (b * (64 * 1280) + (h * 8 + w) * 1280 + c) / (8 * 8 * 1280) = b := by
    omega
  have e2 : (b * (64 * 1280) + (h * 8 + w) * 1280 + c) / (8 * 1280) % 8 = h := by
    omega
  have e3 : (b * (64 * 1280) + (h * 8 + w) * 1280 + c) / 1280 % 8 = w := by
    omega
  have e4 : (b * (64 * 1280) + (h * 8 + w) * 1280 + c) % 1280 = c := by
    omega
  rw [e1, e2, e3, e4]

lemma globalSum_working (outputs thirds_i : Tensor4) (b h w c : Nat)
    (hh : h < 8) (hw : w < 8) (hc : c < 1280) :
    globalSum 8 8 1280 outputs thirds_i b h w c
      = sum1 8 8 outputs b c * thirds_i b h w c := by
  unfold globalSum greyScaled grey
  rw [flatten4_round thirds_i b h w c hh hw hc]

lemma gpo_step_working (outputs seconds_i thirds_i g : Tensor4)
    (ss ts gs : List Tensor4) (ci : Nat) (cis : List Nat) (hci : ci < 4) :
    gpoGo 4 8 8 1280 outputs (seconds_i :: ss) (thirds_i :: ts) (g :: gs)
        (ci :: cis)
      = (gpoGo 4 8 8 1280 outputs ss ts gs cis).map fun maps =>
          ponderate_output 8 8 1280 (sliceB outputs ci)
            (sliceB (alphaT 8 8 1280 outputs seconds_i thirds_i) ci)
            (sliceB g ci) :: maps := by
  rw [gpoGo]
  rw [if_neg (by norm_num), if_neg (by norm_num), if_neg (by norm_num)]
  rw [show min 4 4 = 4 from rfl, find?_range_beq ci 4 hci]

lemma ponderate_zero (H W C : Nat) (output alpha grad : Tensor3)
    (hg : ∀ h w c, grad h w c = 0) (h w : Nat) :
    ponderate_output H W C output alpha grad h w = 0 := by
  simp [ponderate_output, weights, hg]

lemma idxOfOnes_append : ∀ a b : List ℚ,
    idxOfOnes (a ++ b)
      = idxOfOnes a ++ (idxOfOnes b).map (fun n => n + a.length)
  | [], b => by simp [idxOfOnes]
  | x :: a, b => by
    have hfun : ((fun n : Nat => n + 1) ∘ (fun n : Nat => n + a.length))
        = fun n : Nat => n + (a.length + 1) := by
      funext n
      simp only [Function.comp_apply]
      omega
    by_cases hx : x = 1 <;>
      simp [idxOfOnes, hx, idxOfOnes_append a b, List.map_append,
        List.map_map, hfun, List.length_cons]

lemma idxOfOnes_zeros : ∀ l : List ℚ, (∀ x ∈ l, x ≠ 1) → idxOfOnes l = []
  | [], _ => rfl
  | x :: l, h => by
    have hx : x ≠ 1 := h x (List.mem_cons_self x l)
    rw [idxOfOnes, if_neg hx,
      idxOfOnes_zeros l (fun y hy => h y (List.mem_cons_of_mem x hy))]
    rfl

lemma idxOfOnes_oneHot : ∀ K c : Nat, c < K → idxOfOnes (oneHot K c) = [c] := by
  intro K
  induction K with
  | zero => intro c h; omega
  | succ K ih =>
    intro c h
    rw [oneHot, List.range_succ_eq_map, List.map_cons, List.map_map]
    cases c with
    | zero =>
      have hz : idxOfOnes ((List.range K).map
          ((fun j : Nat => if j = 0 then (1 : ℚ) else 0) ∘ Nat.succ)) = [] := by
        apply idxOfOnes_zeros
        intro x hx
        rcases List.mem_map.mp hx with ⟨j, _, rfl⟩
        simp [Function.comp]
      rw [if_pos rfl, idxOfOnes, if_pos rfl, hz]
      rfl
    | succ c' =>
      have hfun : ((fun j : Nat => if j = c' + 1 then (1 : ℚ) else 0) ∘ Nat.succ)
          = fun j : Nat => if j = c' then (1 : ℚ) else 0 := by
        funext j
        by_cases hj : j = c'
        · simp [hj]
        · have : j + 1 ≠ c' + 1 := by omega
          simp [Function.comp, hj, this]
      have hhead : (if (0 : Nat) = c' + 1 then (1 : ℚ) else 0) = 0 := by
        simp
      have hone : (List.range K).map (fun j : Nat => if j = c' then (1 : ℚ) else 0)
          = oneHot K c' := rfl
      rw [hhead, hfun, hone, idxOfOnes, if_neg (by norm_num),
        ih c' (by omega)]
      rfl

lemma posList_shift (K : Nat) : ∀ (cs : List Nat) (i : Nat),
    posList K (i + 1) cs = (posList K i cs).map (fun n => n + K)
  | [], _ => rfl
  | c :: cs, i => by
    simp only [posList, List.map_cons]
    rw [posList_shift K cs (i + 1)]
    congr 1
    ring

lemma idxOfOnes_flat_oneHot (K : Nat) : ∀ cls : List Nat,
    (∀ c ∈ cls, c < K) →
    idxOfOnes ((cls.map (oneHot K)).flatten) = posList K 0 cls
  | [], _ => rfl
  | c :: cls, h => by
    rw [List.map_cons, List.flatten_cons, idxOfOnes_append,
      idxOfOnes_oneHot K c (h c (List.mem_cons_self c cls)),
      idxOfOnes_flat_oneHot K cls (fun x hx => h x (List.mem_cons_of_mem c hx))]
    have hlen : (oneHot K c).length = K := by
      rw [oneHot, List.length_map, List.length_range]
    rw [hlen, ← posList_shift K cls 0]
    simp [posList]

lemma enumSub_posList (K : Nat) : ∀ (cs : List Nat) (i : Nat),
    enumSub i (posList K i cs) = expectedDerived K i cs
  | [], _ => rfl
  | c :: cs, i => by
    simp only [posList, enumSub, expectedDerived]
    rw [enumSub_posList K cs (i + 1)]
    congr 1
    push_cast
    ring

lemma expectedDerived_four : ∀ (cs : List Nat) (i : Nat),
    expectedDerived 4 i cs = cs.map (fun c : Nat => (c : ℤ))
  | [], _ => rfl
  | c :: cs, i => by
    simp only [expectedDerived, List.map_cons]
    rw [expectedDerived_four cs (i + 1)]
    norm_num

/-! ### Concrete tensors used by witnesses and counterexamples -/

/-- All-zero tensor. -/
def tzero : Tensor4 := fun _ _ _ _ => 0

/-- All-one tensor. -/
def tone : Tensor4 := fun _ _ _ _ => 1

/-- Tensor whose value is the batch index, distinguishing batch slices. -/
def tbatch : Tensor4 := fun b _ _ _ => (b : ℚ)

/-- Layer list with two 4D layers followed by a flat head. -/
def demoLayers : List Layer :=
  [⟨"conv1", [1, 8, 8, 4]⟩, ⟨"conv2", [1, 4, 4, 8]⟩, ⟨"flat_head", [1, 128]⟩]

/-- Layer list with no 4D layer at all. -/
def denseOnlyLayers : List Layer :=
  [⟨"input_layer", [1, 3]⟩, ⟨"dense", [1, 10]⟩]

/-! ### Claim theorems -/

/-- C4: for every class index, the guided gradient built by
`get_gradients_and_filters` (lines 137-139) is zero at every position where
the feature map is ≤ 0 or the first derivative is ≤ 0, and equals the first
derivative unchanged at every position where both are strictly positive. -/
theorem c4_guided_gradient_gating (conv_outputs grads_i : Tensor4)
    (b h w c : Nat) :
    ((conv_outputs b h w c ≤ 0 ∨ grads_i b h w c ≤ 0) →
      guided_grads conv_outputs grads_i b h w c = 0)
    ∧ ((0 < conv_outputs b h w c ∧ 0 < grads_i b h w c) →
      guided_grads conv_outputs grads_i b h w c = grads_i b h w c) := by
  constructor
  · rintro (hle | hle)
    · simp only [guided_grads, reluMask, if_neg (not_lt.mpr hle)]
      ring
    · simp only [guided_grads, reluMask, if_neg (not_lt.mpr hle)]
      ring
  · rintro ⟨hco, hgr⟩
    simp only [guided_grads, reluMask, if_pos hco, if_pos hgr]
    ring

theorem c4_witness :
    guided_grads tzero tone 0 0 0 0 = 0
    ∧ guided_grads tone tone 0 0 0 0 = tone 0 0 0 0 :=
  ⟨(c4_guided_gradient_gating tzero tone 0 0 0 0).1
      (Or.inl (by norm_num [tzero])),
   (c4_guided_gradient_gating tone tone 0 0 0 0).2 (by norm_num [tone])⟩

/-- C5: whenever the ordered layer list contains at least one layer with a
4-dimensional output shape, `infer_grad_cam_target_layer` (lines 98-101)
returns the name of the last such layer in traversal order — the reversed
scan returns exactly the last element of the filtered list. -/
theorem c5_last_4d_layer_selected (layers : List Layer) (l : Layer)
    (h : (layers.filter (fun l => l.output_shape.length == 4)).getLast?
        = some l) :
    infer_grad_cam_target_layer layers = Except.ok l.name := by
  have hf : layers.reverse.find? (fun l => l.output_shape.length == 4)
      = some l := by
    rw [reverse_find?_eq_filter_getLast?]
    exact h
  unfold infer_grad_cam_target_layer
  rw [hf]

theorem c5_witness :
    infer_grad_cam_target_layer demoLayers = Except.ok "conv2" :=
  c5_last_4d_layer_selected demoLayers ⟨"conv2", [1, 4, 4, 8]⟩ rfl

/-- C6: for a model with no 4-dimensional-output layer and no explicit
layer name, the layer inference (lines 103-105) raises — the spec's
`NoConvolutionalLayerError`, a `ValueError` in the code — and the whole
explanation call aborts with that error, whatever the downstream
computation `rest` would have produced: no partial result exists. -/
theorem c6_no_conv_layer_error (layers : List Layer)
    (h : ∀ l ∈ layers, l.output_shape.length ≠ 4)
    (rest : String → Except String (List Tensor2)) :
    explainLayerStep layers none rest
      = Except.error
          "Model does not seem to contain 4D layer. Grad CAM cannot be applied." := by
  have hf : layers.reverse.find? (fun l => l.output_shape.length == 4)
      = none := by
    rw [List.find?_eq_none]
    intro x hx
    have hx4 := h x (List.mem_reverse.mp hx)
    simp [hx4]
  unfold explainLayerStep infer_grad_cam_target_layer
  rw [hf]

theorem c6_witness :
    explainLayerStep denseOnlyLayers none (fun _ => Except.ok [])
      = Except.error
          "Model does not seem to contain 4D layer. Grad CAM cannot be applied." :=
  c6_no_conv_layer_error denseOnlyLayers (by decide) (fun _ => Except.ok [])

/-- C8: if the guided gradient of a class is identically zero, the CAM the
composer produces for that class is identically zero: the per-channel
weights (line 219, spatial mean of alpha times guided gradient) collapse to
zero and the ponderated sum (line 222) of the feature map with zero weights
is zero. -/
theorem c8_zero_guided_grad_zero_cam (outputs seconds_i thirds_i g : Tensor4)
    (ci : Nat) (hci : ci < 4) (hg : ∀ b h w c, g b h w c = 0)
    (maps : List Tensor2)
    (hmaps : generate_ponderated_output 4 8 8 1280 outputs [seconds_i]
        [thirds_i] [g] [ci] = Except.ok maps) :
    ∀ m ∈ maps, ∀ h w, m h w = 0 := by
  rw [generate_ponderated_output,
    gpo_step_working _ _ _ _ _ _ _ _ _ hci] at hmaps
  simp only [gpoGo, Except.map] at hmaps
  injection hmaps with hmm
  intro m hm h w
  rw [← hmm] at hm
  rcases List.mem_singleton.mp hm with rfl
  exact ponderate_zero 8 8 1280 _ _ _ (fun hh ww cc => hg ci hh ww cc) h w

theorem c8_witness :
    ponderate_output 8 8 1280 (sliceB tzero 0)
      (sliceB (alphaT 8 8 1280 tzero tzero tzero) 0) (sliceB tzero 0) 0 0
      = 0 :=
  c8_zero_guided_grad_zero_cam tzero tzero tzero tzero 0 (by norm_num)
    (fun _ _ _ _ => rfl)
    [ponderate_output 8 8 1280 (sliceB tzero 0)
      (sliceB (alphaT 8 8 1280 tzero tzero tzero) 0) (sliceB tzero 0)]
    (by rw [generate_ponderated_output,
          gpo_step_working _ _ _ _ _ _ _ _ _ (by norm_num)]
        rfl)
    (ponderate_output 8 8 1280 (sliceB tzero 0)
      (sliceB (alphaT 8 8 1280 tzero tzero tzero) 0) (sliceB tzero 0))
    (List.mem_singleton.mpr rfl) 0 0

/-- C2: for every class position, the composer computes `global_sum` at
(b, h, w, c) — through the reshape to [4,64,1280], the triple loop and the
reshape back (lines 178-187) — as the spatial sum of the feature map at
(b, c) times the third derivative at (b, h, w, c); and wherever the alpha
denominator is nonzero, alpha (line 192) is the second derivative divided
by (2 * second derivative + global_sum), a tensor shaped like the feature
map.  Stated at the only shape the composer accepts, (4, 8, 8, 1280), for
in-range spatial/channel indices. -/
theorem c2_global_sum_and_alpha (outputs seconds_i thirds_i : Tensor4)
    (b h w c : Nat) (hh : h < 8) (hw : w < 8) (hc : c < 1280) :
    globalSum 8 8 1280 outputs thirds_i b h w c
        = sum1 8 8 outputs b c * thirds_i b h w c
    ∧ (alphaDenomRaw 8 8 1280 outputs seconds_i thirds_i b h w c ≠ 0 →
      alphaT 8 8 1280 outputs seconds_i thirds_i b h w c
        = seconds_i b h w c
            / (2 * seconds_i b h w c
                + globalSum 8 8 1280 outputs thirds_i b h w c)) := by
  refine ⟨globalSum_working outputs thirds_i b h w c hh hw hc, ?_⟩
  intro hne
  simp only [alphaT, alphaDenom]
  rw [if_pos hne]
  simp only [alphaDenomRaw]
  ring_nf

theorem c2_witness :
    globalSum 8 8 1280 tone tzero 0 0 0 0 = sum1 8 8 tone 0 0 * tzero 0 0 0 0
    ∧ alphaT 8 8 1280 tone tone tzero 0 0 0 0
        = tone 0 0 0 0
            / (2 * tone 0 0 0 0 + globalSum 8 8 1280 tone tzero 0 0 0 0) :=
  ⟨(c2_global_sum_and_alpha tone tone tzero 0 0 0 0 (by norm_num) (by norm_num)
      (by norm_num)).1,
   (c2_global_sum_and_alpha tone tone tzero 0 0 0 0 (by norm_num) (by norm_num)
      (by norm_num)).2
     (by norm_num [alphaDenomRaw, globalSum, greyScaled, grey, flatten4,
        tzero, tone])⟩

/-- C3: at every position where the raw alpha denominator
`2 * grad₂ + global_sum` is exactly zero, line 191 substitutes 1, so alpha
equals the second derivative there (no division by zero can occur — in this
exact-rational model there is no NaN/Inf at all); at every position with a
nonzero denominator, alpha is the standard quotient. -/
theorem c3_alpha_denominator_substitution (H W C : Nat)
    (outputs seconds_i thirds_i : Tensor4) (b h w c : Nat) :
    (alphaDenomRaw H W C outputs seconds_i thirds_i b h w c = 0 →
      alphaT H W C outputs seconds_i thirds_i b h w c = seconds_i b h w c)
    ∧ (alphaDenomRaw H W C outputs seconds_i thirds_i b h w c ≠ 0 →
      alphaT H W C outputs seconds_i thirds_i b h w c
        = seconds_i b h w c
            / alphaDenomRaw H W C outputs seconds_i thirds_i b h w c) := by
  constructor
  · intro h0
    simp [alphaT, alphaDenom, h0]
  · intro hne
    simp only [alphaT, alphaDenom]
    rw [if_pos hne]

theorem c3_witness :
    alphaT 8 8 1280 tzero tzero tzero 0 0 0 0 = tzero 0 0 0 0
    ∧ alphaT 8 8 1280 tzero tone tzero 0 0 0 0
        = tone 0 0 0 0 / alphaDenomRaw 8 8 1280 tzero tone tzero 0 0 0 0 :=
  ⟨(c3_alpha_denominator_substitution 8 8 1280 tzero tzero tzero 0 0 0 0).1
     (by norm_num [alphaDenomRaw, globalSum, greyScaled, grey, flatten4,
        tzero]),
   (c3_alpha_denominator_substitution 8 8 1280 tzero tone tzero 0 0 0 0).2
     (by norm_num [alphaDenomRaw, globalSum, greyScaled, grey, flatten4,
        tzero, tone])⟩

lemma cex_alpha (b h w c : Nat) :
    alphaT 8 8 1280 tbatch tone tzero b h w c = 1 / 2 := by
  norm_num [alphaT, alphaDenom, alphaDenomRaw, globalSum, greyScaled, grey,
    flatten4, tzero, tone]

lemma cex_map_value (b h w : Nat) :
    ponderate_output 8 8 1280 (sliceB tbatch b)
      (sliceB (alphaT 8 8 1280 tbatch tone tzero) b) (sliceB tone b) h w
      = 640 * b := by
  simp only [ponderate_output, weights, sliceB, cex_alpha, tone, tbatch,
    mul_one]
  rw [Finset.sum_const, Finset.sum_const, Finset.sum_const]
  simp only [Finset.card_range, nsmul_eq_mul]
  norm_num
  ring

/-- C1 (counterexample to the universally quantified claim): on a batch of
size 2 with a length-1 class-index list the composer does not return CAMs
at all — the hardcoded reshape to [4,64,1280] (line 178) fails, so "for
every batch of size B ... returns exactly B CAMs" is false as stated. -/
theorem c1_batch_size_counterexample :
    generate_ponderated_output 2 8 8 1280 tzero [tzero] [tzero] [tzero] [0]
      = Except.error
          "InvalidArgumentError: cannot reshape tensor to [4,64,1280]" := rfl

/-- C1 (amended): only at the hardcoded shape (4, 8, 8, 1280) and when
every class-index value is below 4 does the composer return exactly as
many CAMs as classes (here 4 = B), one per class position in the order the
class indices were given, each CAM the 8 × 8 spatial `ponderate_output`
map of the selected batch slice. -/
theorem c1_exactly_four_cams (outputs : Tensor4)
    (s0 s1 s2 s3 t0 t1 t2 t3 g0 g1 g2 g3 : Tensor4)
    (c0 c1 c2 c3 : Nat) (h0 : c0 < 4) (h1 : c1 < 4) (h2 : c2 < 4)
    (h3 : c3 < 4) :
    generate_ponderated_output 4 8 8 1280 outputs [s0, s1, s2, s3]
        [t0, t1, t2, t3] [g0, g1, g2, g3] [c0, c1, c2, c3]
      = Except.ok
          [ponderate_output 8 8 1280 (sliceB outputs c0)
            (sliceB (alphaT 8 8 1280 outputs s0 t0) c0) (sliceB g0 c0),
           ponderate_output 8 8 1280 (sliceB outputs c1)
            (sliceB (alphaT 8 8 1280 outputs s1 t1) c1) (sliceB g1 c1),
           ponderate_output 8 8 1280 (sliceB outputs c2)
            (sliceB (alphaT 8 8 1280 outputs s2 t2) c2) (sliceB g2 c2),
           ponderate_output 8 8 1280 (sliceB outputs c3)
            (sliceB (alphaT 8 8 1280 outputs s3 t3) c3) (sliceB g3 c3)] := by
  rw [generate_ponderated_output,
    gpo_step_working _ _ _ _ _ _ _ _ _ h0,
    gpo_step_working _ _ _ _ _ _ _ _ _ h1,
    gpo_step_working _ _ _ _ _ _ _ _ _ h2,
    gpo_step_working _ _ _ _ _ _ _ _ _ h3]
  rfl

theorem c1_exactly_four_cams_witness :
    generate_ponderated_output 4 8 8 1280 tzero [tzero, tzero, tzero, tzero]
        [tzero, tzero, tzero, tzero] [tzero, tzero, tzero, tzero] [0, 1, 2, 3]
      = Except.ok
          [ponderate_output 8 8 1280 (sliceB tzero 0)
            (sliceB (alphaT 8 8 1280 tzero tzero tzero) 0) (sliceB tzero 0),
           ponderate_output 8 8 1280 (sliceB tzero 1)
            (sliceB (alphaT 8 8 1280 tzero tzero tzero) 1) (sliceB tzero 1),
           ponderate_output 8 8 1280 (sliceB tzero 2)
            (sliceB (alphaT 8 8 1280 tzero tzero tzero) 2) (sliceB tzero 2),
           ponderate_output 8 8 1280 (sliceB tzero 3)
            (sliceB (alphaT 8 8 1280 tzero tzero tzero) 3) (sliceB tzero 3)] :=
  c1_exactly_four_cams tzero tzero tzero tzero tzero tzero tzero tzero tzero
    tzero tzero tzero tzero 0 1 2 3 (by norm_num) (by norm_num) (by norm_num)
    (by norm_num)

/-- C7 (counterexample): with batch-distinguishing feature map `tbatch`
(value = batch index) and class-index list `[2]`, the single CAM is built
from the batch slice at position 2 — the value of the class index — not
from position 0 (where the class sits in the list): its value at (0,0) is
1280, while the position-0 slice would give 0.  So "matching by position in the
list, not by the value of the class index" is false as stated. -/
theorem c7_match_by_value_counterexample :
    generate_ponderated_output 4 8 8 1280 tbatch [tone] [tzero] [tone] [2]
      = Except.ok
          [ponderate_output 8 8 1280 (sliceB tbatch 2)
            (sliceB (alphaT 8 8 1280 tbatch tone tzero) 2) (sliceB tone 2)]
    ∧ ponderate_output 8 8 1280 (sliceB tbatch 2)
        (sliceB (alphaT 8 8 1280 tbatch tone tzero) 2) (sliceB tone 2) 0 0
      = 1280
    ∧ ponderate_output 8 8 1280 (sliceB tbatch 0)
        (sliceB (alphaT 8 8 1280 tbatch tone tzero) 0) (sliceB tone 0) 0 0
      = 0 := by
  refine ⟨?_, ?_, ?_⟩
  · rw [generate_ponderated_output,
      gpo_step_working _ _ _ _ _ _ _ _ _ (by norm_num)]
    rfl
  · rw [cex_map_value 2 0 0]
    norm_num
  · rw [cex_map_value 0 0 0]
    norm_num

/-- C7 (amended): for each class position `i`, the composer builds the CAM
from the batch slice whose position equals the VALUE `class_index[i]`
(lines 194-197 scan batch positions and break at the first
`j == class_index[i]`), provided that value is below 4; shown here for a
single-class call. -/
theorem c7_selection_by_value (outputs seconds_i thirds_i g : Tensor4)
    (ci : Nat) (hci : ci < 4) :
    generate_ponderated_output 4 8 8 1280 outputs [seconds_i] [thirds_i] [g]
        [ci]
      = Except.ok
          [ponderate_output 8 8 1280 (sliceB outputs ci)
            (sliceB (alphaT 8 8 1280 outputs seconds_i thirds_i) ci)
            (sliceB g ci)] := by
  rw [generate_ponderated_output,
    gpo_step_working _ _ _ _ _ _ _ _ _ hci]
  rfl

theorem c7_selection_by_value_witness :
    generate_ponderated_output 4 8 8 1280 tzero [tzero] [tzero] [tzero] [3]
      = Except.ok
          [ponderate_output 8 8 1280 (sliceB tzero 3)
            (sliceB (alphaT 8 8 1280 tzero tzero tzero) 3) (sliceB tzero 3)] :=
  c7_selection_by_value tzero tzero tzero tzero 3 (by norm_num)

/-- C9: the composer reshapes each per-class third derivative to the
hardcoded [4, 64, 1280] and back to (4, 8, 8, 1280) (lines 178, 187); with
at least one class to process, any feature-map shape whose element count is
not exactly 4*8*8*1280 makes it raise the low-level reshape error instead
of producing CAMs, and a run that does return CAMs forces batch size 4,
spatial extent 8 × 8 and 1280 channels (the remaining numpy index and
broadcast constraints of lines 185 and 190-192 exclude every other
factorisation of that element count). -/
theorem c9_hardcoded_reshape (B H W C : Nat) (outputs : Tensor4)
    (s t g : Tensor4) (ss ts gs : List Tensor4) (ci : Nat) (cis : List Nat) :
    (B * H * W * C ≠ 327680 →
      generate_ponderated_output B H W C outputs (s :: ss) (t :: ts)
          (g :: gs) (ci :: cis)
        = Except.error
            "InvalidArgumentError: cannot reshape tensor to [4,64,1280]")
    ∧ (∀ maps, generate_ponderated_output B H W C outputs (s :: ss) (t :: ts)
          (g :: gs) (ci :: cis) = Except.ok maps →
        B = 4 ∧ H = 8 ∧ W = 8 ∧ C = 1280) := by
  constructor
  · intro hne
    rw [generate_ponderated_output, gpoGo,
      if_pos (show B * H * W * C ≠ 4 * 64 * 1280 by norm_num; exact hne)]
  · intro maps hmap
    rw [generate_ponderated_output, gpoGo] at hmap
    by_cases hg1 : B * H * W * C ≠ 4 * 64 * 1280
    · rw [if_pos hg1] at hmap
      exact absurd hmap (by simp)
    · rw [if_neg hg1] at hmap
      by_cases hg2 : ¬ (4 ≤ B ∧ 1280 ≤ C)
      · rw [if_pos hg2] at hmap
        exact absurd hmap (by simp)
      · rw [if_neg hg2] at hmap
        by_cases hg3 : ¬ ((B = 4 ∨ B = 1) ∧ (H = 8 ∨ H = 1) ∧ (W = 8 ∨ W = 1)
            ∧ (C = 1280 ∨ C = 1))
        · rw [if_pos hg3] at hmap
          exact absurd hmap (by simp)
        · rw [not_not] at hg1 hg2 hg3
          obtain ⟨hBle, hCle⟩ := hg2
          obtain ⟨hB, hH, hW, hC⟩ := hg3
          have hBeq : B = 4 := by rcases hB with h | h <;> omega
          have hCeq : C = 1280 := by rcases hC with h | h <;> omega
          subst hBeq
          subst hCeq
          rcases hH with hH | hH <;> rcases hW with hW | hW <;>
            subst hH <;> subst hW
          · exact ⟨rfl, rfl, rfl, rfl⟩
          · omega
          · omega
          · omega

theorem c9_witness :
    generate_ponderated_output 1 1 1 1 tzero [tzero] [tzero] [tzero] [0]
      = Except.error
          "InvalidArgumentError: cannot reshape tensor to [4,64,1280]"
    ∧ (4 = 4 ∧ 8 = 8 ∧ 8 = 8 ∧ 1280 = 1280) :=
  ⟨(c9_hardcoded_reshape 1 1 1 1 tzero tzero tzero tzero [] [] [] 0 []).1
     (by norm_num),
   (c9_hardcoded_reshape 4 8 8 1280 tzero tzero tzero tzero [] [] [] 0 []).2
     [ponderate_output 8 8 1280 (sliceB tzero 0)
       (sliceB (alphaT 8 8 1280 tzero tzero tzero) 0) (sliceB tzero 0)]
     (by rw [generate_ponderated_output,
           gpo_step_working _ _ _ _ _ _ _ _ _ (by norm_num)]
         rfl)⟩

/-- C10: in batch mode `explain` ignores the `class_index` argument of the
caller and derives the class indices from the one-hot batch labels
(lines 57-59): flatten, take the positions of the value 1, subtract 4 times
the enumeration index.  On a one-hot batch of width K with classes `cls`,
the `i`-th derived index is `cls[i] + i * (K - 4)` — correct exactly when
the model has K = 4 output classes, and wrong for every row past the first
whenever K ≠ 4. -/
theorem c10_batch_mode_class_index (K : Nat) (cls : List Nat)
    (caller caller2 : List ℤ) (h : ∀ c ∈ cls, c < K) :
    explainClassIndexStep true (cls.map (oneHot K)) caller
        = explainClassIndexStep true (cls.map (oneHot K)) caller2
    ∧ explainClassIndexStep true (cls.map (oneHot K)) caller
        = expectedDerived K 0 cls
    ∧ (K = 4 → explainClassIndexStep true (cls.map (oneHot K)) caller
        = cls.map (fun c : Nat => (c : ℤ)))
    ∧ (K ≠ 4 → ∀ a b rest, cls = a :: b :: rest →
        explainClassIndexStep true (cls.map (oneHot K)) caller
          ≠ cls.map (fun c : Nat => (c : ℤ))) := by
  have hstep : explainClassIndexStep true (cls.map (oneHot K)) caller
      = deriveBatchClassIndex (cls.map (oneHot K)) := rfl
  have hmain : explainClassIndexStep true (cls.map (oneHot K)) caller
      = expectedDerived K 0 cls := by
    rw [hstep]
    unfold deriveBatchClassIndex
    rw [idxOfOnes_flat_oneHot K cls h, enumSub_posList]
  refine ⟨rfl, hmain, ?_, ?_⟩
  · intro hK
    subst hK
    rw [hmain, expectedDerived_four]
  · intro hK a b rest hcls heq
    rw [hmain] at heq
    subst hcls
    simp only [expectedDerived, List.map_cons, List.cons.injEq] at heq
    omega

theorem c10_witness :
    explainClassIndexStep true ([1, 2].map (oneHot 3)) [7]
      = expectedDerived 3 0 [1, 2] :=
  (c10_batch_mode_class_index 3 [1, 2] [7] [] (by decide)).2.1
